import Mathlib

/-!
Verification development for the RAG indexing-and-query core of the
patient-intake repository.  The Python sources embedded here are:

* `utils/temp_chunking.py`      — `safe_parse_llm_output` (LLM output salvage parser)
* `utils/faissdb_ingestion.py`  — `load_and_split_md`, `build_faiss_index`
* `mcp_servers/vector_search_server.py` — `query`
* `utils/faiss-db-retrival-llm.py`      — the `matched_docs` retrieval step
* `faiss_server.py`             — `RAGContext`, `RAGContext.cleanup`, `rag_query`

External library behaviour (Python `json`/`re`/`str` methods, the FAISS
`IndexFlatIP.search` contract, langchain's `MarkdownHeaderTextSplitter`,
sentence-transformers' `encode` default) is modelled from its documented
semantics; each such definition carries a comment saying what it models.
Embedding vectors are modelled over `ℤ` (exact integer components standing
for the float vectors, which are opaque to every claim; no claim below
depends on fractional values or float rounding).
-/

/-! ## Python string primitives -/

/-- Models Python `str.strip()` / `str.isspace` for the ASCII whitespace
characters (space, tab, newline, carriage return, vertical tab, form feed).
Non-ASCII Unicode whitespace is not modelled; no claim depends on it. -/
def pyIsSpace (c : Char) : Bool :=
  c = ' ' || c = '\t' || c = '\n' || c = '\r' || c = Char.ofNat 11 || c = Char.ofNat 12

def pyStripList (l : List Char) : List Char :=
  ((l.dropWhile pyIsSpace).reverse.dropWhile pyIsSpace).reverse

/-- Python `s.strip()`. -/
def pyStrip (s : String) : String := String.mk (pyStripList s.toList)

/-- Python `s.strip(chars)`: remove the given characters from both ends. -/
def pyStripChars (cset : List Char) (s : String) : String :=
  String.mk (((s.toList.dropWhile cset.contains).reverse.dropWhile cset.contains).reverse)

/-- Models Python `str.isprintable` on the ASCII range: control characters
(below 0x20) and DEL are not printable, space and visible ASCII are.
Characters at or above 0x80 are treated as printable (an approximation of the
Unicode category rules; no claim depends on non-ASCII printability). -/
def pyIsPrintable (c : Char) : Bool :=
  decide (32 ≤ c.toNat ∧ c.toNat ≠ 127)

def pyFilterPrintable (s : String) : String :=
  String.mk (s.toList.filter pyIsPrintable)

/-- ASCII lower-casing, for modelling `re.IGNORECASE` on ASCII patterns. -/
def lowerAscii (c : Char) : Char :=
  if 'A' ≤ c ∧ c ≤ 'Z' then Char.ofNat (c.toNat + 32) else c

/-- `pat` matches at the head of the text, character-wise (a
kernel-computable counterpart of `String.startsWith`). -/
def charsLeadWith : List Char → List Char → Bool
  | [], _ => true
  | _ :: _, [] => false
  | p :: ps, c :: cs => p = c && charsLeadWith ps cs

/-- `s.startswith(pre)`. -/
def strStartsWith (s pre : String) : Bool := charsLeadWith pre.toList s.toList

/-- `s[n:]` — drop the first `n` characters. -/
def strDrop (s : String) (n : Nat) : String := String.mk (s.toList.drop n)

/-- Python `text.split('\n')`, keeping empty parts. -/
def splitNewlineList : List Char → List (List Char)
  | [] => [[]]
  | c :: rest =>
    let r := splitNewlineList rest
    if c = '\n' then [] :: r
    else
      match r with
      | l :: ls => (c :: l) :: ls
      | [] => [[c]]

def strSplitLines (s : String) : List String := (splitNewlineList s.toList).map String.mk

/-- Python list indexing `l[i]`: non-negative indices are positional,
negative indices count from the end, and an out-of-range index is an
`IndexError`, modelled as `none`. -/
def pyListGet {α : Type} (l : List α) (i : Int) : Option α :=
  if 0 ≤ i then l.get? i.toNat
  else if 0 ≤ (l.length : Int) + i then l.get? ((l.length : Int) + i).toNat
  else none

/-! ## JSON values and `json.loads`

The parser below models Python's `json.loads` (strict mode, the default):
the standard JSON grammar plus the `NaN` / `Infinity` / `-Infinity`
constants that `json.loads` accepts by default (kept as `Json.special`
values since they have no rational counterpart).  Numbers are kept as exact
rationals (Python would round floats); duplicate object keys are kept as an
association list (Python keeps the last); `\uXXXX` escapes are decoded
without surrogate-pair combination.  No claim depends on these corners. -/

inductive Json where
  | null : Json
  | bool (b : Bool) : Json
  | num (q : ℚ) : Json
  | special (s : String) : Json
  | str (s : String) : Json
  | arr (xs : List Json) : Json
  | obj (kvs : List (String × Json)) : Json

/-- JSON insignificant whitespace. -/
def jsonWs (c : Char) : Bool := c = ' ' || c = '\t' || c = '\n' || c = '\r'

def skipWs : List Char → List Char
  | c :: rest => if jsonWs c then skipWs rest else c :: rest
  | [] => []

def isJDigit (c : Char) : Bool := '0' ≤ c && c ≤ '9'

def isHexDigit (c : Char) : Bool :=
  ('0' ≤ c && c ≤ '9') || ('a' ≤ c && c ≤ 'f') || ('A' ≤ c && c ≤ 'F')

def hexVal (c : Char) : Nat :=
  if '0' ≤ c ∧ c ≤ '9' then c.toNat - 48
  else if 'a' ≤ c ∧ c ≤ 'f' then c.toNat - 87
  else if 'A' ≤ c ∧ c ≤ 'F' then c.toNat - 55
  else 0

def digitsToNat (ds : List Char) : Nat :=
  ds.foldl (fun acc c => acc * 10 + (c.toNat - 48)) 0

/-- One-character JSON string escapes (`\u` is handled separately;
any other escape is a strict-mode parse error). -/
def jsonEscChar (c : Char) : Option Char :=
  if c = '"' then some '"'
  else if c = '\\' then some '\\'
  else if c = '/' then some '/'
  else if c = 'b' then some (Char.ofNat 8)
  else if c = 'f' then some (Char.ofNat 12)
  else if c = 'n' then some '\n'
  else if c = 'r' then some '\r'
  else if c = 't' then some '\t'
  else none

/-- Parse the body of a JSON string (the opening quote already consumed),
returning the decoded characters and the input after the closing quote.
Unescaped control characters are rejected, as in strict `json.loads`. -/
def parseJStringChars : List Char → Option (List Char × List Char)
  | '"' :: rest => some ([], rest)
  | '\\' :: 'u' :: a :: b :: c :: d :: rest =>
    if isHexDigit a && isHexDigit b && isHexDigit c && isHexDigit d then
      (parseJStringChars rest).map (fun p =>
        (Char.ofNat (((hexVal a * 16 + hexVal b) * 16 + hexVal c) * 16 + hexVal d) :: p.1, p.2))
    else none
  | '\\' :: e :: rest =>
    match jsonEscChar e with
    | some c => (parseJStringChars rest).map (fun p => (c :: p.1, p.2))
    | none => none
  | c :: rest =>
    if c.toNat < 32 then none
    else (parseJStringChars rest).map (fun p => (c :: p.1, p.2))
  | [] => none

def parseJString (cs : List Char) : Option (String × List Char) :=
  (parseJStringChars cs).map (fun p => (String.mk p.1, p.2))

/-- Parse a JSON number per the RFC 8259 grammar, as an exact rational. -/
def parseJNumber (cs : List Char) : Option (ℚ × List Char) :=
  let signRes : Bool × List Char :=
    match cs with
    | '-' :: r => (true, r)
    | _ => (false, cs)
  let neg := signRes.1
  let intSpan := signRes.2.span isJDigit
  let ids := intSpan.1
  if ids.isEmpty then none
  else if 1 < ids.length ∧ ids.head? = some '0' then none
  else
    let ipart : ℚ := (digitsToNat ids : ℚ)
    let fracRes : Option (ℚ × List Char) :=
      match intSpan.2 with
      | '.' :: r =>
        let fs := r.span isJDigit
        if fs.1.isEmpty then none
        else some (ipart + (digitsToNat fs.1 : ℚ) / ((10 : ℚ) ^ fs.1.length), fs.2)
      | _ => some (ipart, intSpan.2)
    match fracRes with
    | none => none
    | some (mant, cs3) =>
      let expRes : Option (ℚ × List Char) :=
        match cs3 with
        | 'e' :: r | 'E' :: r =>
          let esign : Bool × List Char :=
            match r with
            | '+' :: r2 => (false, r2)
            | '-' :: r2 => (true, r2)
            | _ => (false, r)
          let es := esign.2.span isJDigit
          if es.1.isEmpty then none
          else
            let e := digitsToNat es.1
            some (if esign.1 then mant / ((10 : ℚ) ^ e) else mant * ((10 : ℚ) ^ e), es.2)
        | _ => some (mant, cs3)
      match expRes with
      | none => none
      | some (v, r) => some ((if neg then -v else v), r)

mutual

def parseJValue : Nat → List Char → Option (Json × List Char)
  | 0, _ => none
  | f + 1, cs =>
    match skipWs cs with
    | '{' :: rest =>
      match skipWs rest with
      | '}' :: r2 => some (Json.obj [], r2)
      | r2 => (parseJMembers f r2).map (fun p => (Json.obj p.1, p.2))
    | '[' :: rest =>
      match skipWs rest with
      | ']' :: r2 => some (Json.arr [], r2)
      | r2 => (parseJElements f r2).map (fun p => (Json.arr p.1, p.2))
    | '"' :: rest => (parseJString rest).map (fun p => (Json.str p.1, p.2))
    | 't' :: 'r' :: 'u' :: 'e' :: r => some (Json.bool true, r)
    | 'f' :: 'a' :: 'l' :: 's' :: 'e' :: r => some (Json.bool false, r)
    | 'n' :: 'u' :: 'l' :: 'l' :: r => some (Json.null, r)
    | 'N' :: 'a' :: 'N' :: r => some (Json.special "nan", r)
    | 'I' :: 'n' :: 'f' :: 'i' :: 'n' :: 'i' :: 't' :: 'y' :: r => some (Json.special "inf", r)
    | '-' :: 'I' :: 'n' :: 'f' :: 'i' :: 'n' :: 'i' :: 't' :: 'y' :: r =>
      some (Json.special "-inf", r)
    | cs2 => (parseJNumber cs2).map (fun p => (Json.num p.1, p.2))

def parseJElements : Nat → List Char → Option (List Json × List Char)
  | 0, _ => none
  | f + 1, cs =>
    match parseJValue f cs with
    | none => none
    | some (v, r) =>
      match skipWs r with
      | ',' :: r2 => (parseJElements f r2).map (fun p => (v :: p.1, p.2))
      | ']' :: r2 => some ([v], r2)
      | _ => none

def parseJMembers : Nat → List Char → Option (List (String × Json) × List Char)
  | 0, _ => none
  | f + 1, cs =>
    match skipWs cs with
    | '"' :: rest =>
      match parseJString rest with
      | none => none
      | some (key, r) =>
        match skipWs r with
        | ':' :: r2 =>
          match parseJValue f r2 with
          | none => none
          | some (v, r3) =>
            match skipWs r3 with
            | ',' :: r4 => (parseJMembers f r4).map (fun p => ((key, v) :: p.1, p.2))
            | '}' :: r4 => some ([(key, v)], r4)
            | _ => none
        | _ => none
    | _ => none

end

/-- Models `json.loads`: parse one JSON value and require that only
whitespace follows; anything else raises `json.JSONDecodeError` (`none`).
The fuel `2 * length + 2` dominates the recursion depth, since every two
fuel steps consume at least one input character. -/
def jsonLoads (s : String) : Option Json :=
  let cs := s.toList
  match parseJValue (2 * cs.length + 2) cs with
  | some (v, rest) => if (skipWs rest).isEmpty then some v else none
  | none => none

/-! ## The regex operations of `safe_parse_llm_output`

`temp_chunking.py` applies `re.sub(pattern, '', text, flags=re.IGNORECASE)`
for the patterns `'```json'`, `'```'`, `'Here is the JSON[:\-\\s]*'` and
`'JSON[:\-\\s]*'`.  Note that the raw-string class `[:\-\\s]` contains the
literal characters `:`, `-`, `\` and `s` (the doubled backslash makes `\\`
a literal backslash followed by a literal `s`, not a whitespace class);
with `re.IGNORECASE` the `s` also matches `S`.  `re.sub` removes every
non-overlapping occurrence left to right. -/

/-- Case-insensitive (ASCII) literal match of `pat` at the head of the text;
returns the remainder after the match. -/
def ciStartMatch : List Char → List Char → Option (List Char)
  | [], t => some t
  | _ :: _, [] => none
  | p :: ps, c :: ts => if lowerAscii c = lowerAscii p then ciStartMatch ps ts else none

/-- The character class `[:\-\\s]` of the boilerplate patterns, under
`re.IGNORECASE`. -/
def patClassChar (c : Char) : Bool :=
  c = ':' || c = '-' || c = '\\' || c = 's' || c = 'S'

def removeAllCIAux (pat : List Char) : Nat → List Char → List Char
  | 0, t => t
  | _ + 1, [] => []
  | f + 1, c :: rest =>
    match ciStartMatch pat (c :: rest) with
    | some r => removeAllCIAux pat f r
    | none => c :: removeAllCIAux pat f rest

/-- `re.sub(pat, '', t, flags=re.IGNORECASE)` for a literal pattern. -/
def removeAllCI (pat : String) (t : String) : String :=
  String.mk (removeAllCIAux pat.toList (t.toList.length + 1) t.toList)

def removeLitClassCIAux (pat : List Char) : Nat → List Char → List Char
  | 0, t => t
  | _ + 1, [] => []
  | f + 1, c :: rest =>
    match ciStartMatch pat (c :: rest) with
    | some r => removeLitClassCIAux pat f (r.dropWhile patClassChar)
    | none => c :: removeLitClassCIAux pat f rest

/-- `re.sub(pat + r'[:\-\\s]*', '', t, flags=re.IGNORECASE)` for a literal
`pat` followed by a greedy run of the class characters. -/
def removeLitClassCI (pat : String) (t : String) : String :=
  String.mk (removeLitClassCIAux pat.toList (t.toList.length + 1) t.toList)

/-- Content of the regex `"((?:[^"\\]|\\.)*)"` starting right after an
opening quote: a maximal run of non-quote characters and backslash pairs,
then the closing quote.  Returns the raw captured characters (escapes kept)
and the remainder after the closing quote. -/
def quotedContent : List Char → Option (List Char × List Char)
  | [] => none
  | '"' :: rest => some ([], rest)
  | '\\' :: c :: rest => (quotedContent rest).map (fun p => ('\\' :: c :: p.1, p.2))
  | ['\\'] => none
  | c :: rest => (quotedContent rest).map (fun p => (c :: p.1, p.2))

def findQuotedAux : Nat → List Char → List String
  | 0, _ => []
  | _ + 1, [] => []
  | f + 1, '"' :: rest =>
    (match quotedContent rest with
     | some (content, r) => String.mk content :: findQuotedAux f r
     | none => findQuotedAux f rest)
  | f + 1, _ :: rest => findQuotedAux f rest

/-- `re.findall(r'"((?:[^"\\]|\\.)*)"', t)`: all non-overlapping
double-quoted substrings, scanning left to right. -/
def findQuoted (t : String) : List String :=
  findQuotedAux (t.toList.length + 1) t.toList

/-- Models `m.encode('utf-8').decode('unicode_escape')` for the common
single-character backslash escapes; unrecognised escapes are kept verbatim
(multi-digit octal, `\x`, `\u` and decode errors on malformed escapes are
not modelled — no claim exercises them). -/
def unicodeUnescape : List Char → List Char
  | [] => []
  | '\\' :: c :: rest =>
    if c = 'n' then '\n' :: unicodeUnescape rest
    else if c = 't' then '\t' :: unicodeUnescape rest
    else if c = 'r' then '\r' :: unicodeUnescape rest
    else if c = 'b' then Char.ofNat 8 :: unicodeUnescape rest
    else if c = 'f' then Char.ofNat 12 :: unicodeUnescape rest
    else if c = 'v' then Char.ofNat 11 :: unicodeUnescape rest
    else if c = 'a' then Char.ofNat 7 :: unicodeUnescape rest
    else if c = '\\' then '\\' :: unicodeUnescape rest
    else if c = '\x27' then '\x27' :: unicodeUnescape rest
    else if c = '"' then '"' :: unicodeUnescape rest
    else '\\' :: c :: unicodeUnescape rest
  | c :: rest => c :: unicodeUnescape rest

/-! ## `safe_parse_llm_output` (temp_chunking.py, lines 21-55) -/

/-- The typographic-quote replacements of temp_chunking.py line 39: each
is a single-character substitution, so `str.replace` acts character-wise
here. -/
def normalizeTypographicQuote (c : Char) : Char :=
  if c = '“' ∨ c = '”' then '"'
  else if c = '‘' ∨ c = '’' then '\x27'
  else c

/-- The boilerplate-stripping and quote-normalisation pipeline of
`safe_parse_llm_output` before JSON parsing is attempted
(temp_chunking.py lines 26-39): strip, remove the four prefix patterns
everywhere (case-insensitively), strip backticks/spaces/newlines from the
ends, replace typographic quotes with straight ones. -/
def cleanLlmText (text : String) : String :=
  let t0 := pyStrip text
  let t1 := removeAllCI "```json" t0
  let t2 := removeAllCI "```" t1
  let t3 := removeLitClassCI "Here is the JSON" t2
  let t4 := removeLitClassCI "JSON" t3
  let t5 := pyStripChars ['`', ' ', '\n'] t4
  String.mk (t5.toList.map normalizeTypographicQuote)

/-- Tier-2 fallback (temp_chunking.py lines 48-49): extract all quoted
substrings, keep those whose raw text is non-empty after stripping, and
return them unescaped and stripped. -/
def llmQuotedFallback (t : String) : List String :=
  (findQuoted t).filterMap (fun m =>
    if pyStrip m = "" then none
    else some (pyStrip (String.mk (unicodeUnescape m.toList))))

/-- Tier-3 fallback (temp_chunking.py line 55): the stripped lines that
start with the markdown heading marker `###`. -/
def llmHeadingFallback (t : String) : List String :=
  (strSplitLines t).filterMap (fun s =>
    if strStartsWith (pyStrip s) "###" then some (pyStrip s) else none)

/-- `safe_parse_llm_output` (temp_chunking.py lines 21-55).  The function is
total: `json.JSONDecodeError` is caught, and when every tier yields nothing
the final `return` produces an empty list — there is no `ParseError` raise
path.  Tier-2/3 results (Python lists of strings) are returned as JSON
arrays of strings so that all tiers share one return type. -/
def safe_parse_llm_output (text : String) : Json :=
  let t := cleanLlmText text
  match jsonLoads t with
  | some j => j
  | none =>
    let cleaned := llmQuotedFallback t
    if cleaned.isEmpty then Json.arr ((llmHeadingFallback t).map Json.str)
    else Json.arr (cleaned.map Json.str)

/-- The strings of a JSON array of strings (used only to state
inequalities between parser outputs without a `DecidableEq Json`
instance). -/
def jsonStrings : Json → List String
  | Json.str s => [s]
  | Json.arr xs =>
    xs.foldr (fun j acc =>
      match j with
      | Json.str s => s :: acc
      | _ => acc) []
  | _ => []

/-! ## `MarkdownHeaderTextSplitter` (langchain) and `load_and_split_md`

`faissdb_ingestion.py` line 21 constructs
`MarkdownHeaderTextSplitter(headers_to_split_on=[("###", "subsection")])`
with the defaults `strip_headers=True`, `return_each_line=False`.  The
splitter below models langchain's implementation specialised to that
configuration: lines are stripped and filtered to printable characters;
fenced code blocks are passed through verbatim; a line starting with `###`
(followed by a space or the end of the line) is a header that flushes the
accumulated content as one entry and sets the `subsection` metadata (with a
single header level the header-stack bookkeeping reduces to replacing the
metadata value); a blank line flushes the accumulated content; consecutive
entries with equal metadata are re-aggregated with a `"  \n"` separator.
With `strip_headers=True` the header line itself is never part of the
content, and the header-joining branch of the aggregation step is disabled. -/

/-- A langchain `Document` as produced by the splitter: the page content and
the `"subsection"` metadata value (`none` when no `###` header was seen). -/
structure MDoc where
  page_content : String
  subsection : Option String
deriving DecidableEq

/-- Python `stripped_line.count("```")` (non-overlapping). -/
def countTripleBacktick : List Char → Nat
  | '`' :: '`' :: '`' :: rest => countTripleBacktick rest + 1
  | _ :: rest => countTripleBacktick rest
  | [] => 0

/-- The splitter's loop state: flushed entries, accumulated content lines,
`current_metadata`, `initial_metadata`, and the code-fence state. -/
structure MdSplitState where
  acc : List MDoc
  content : List String
  curMeta : Option String
  initMeta : Option String
  inCode : Bool
  fence : String

/-- Flush `current_content` (if non-empty) as one entry carrying
`current_metadata`. -/
def mdFlush (st : MdSplitState) : List MDoc :=
  if st.content.isEmpty then st.acc
  else st.acc ++ [⟨String.intercalate "\n" st.content, st.curMeta⟩]

/-- A line is a `###` header when it starts with the separator and is
either exactly the separator or followed by a space (so `####` is not a
level-3 header). -/
def isMdHeader (stripped : String) : Bool :=
  strStartsWith stripped "###" &&
    (strDrop stripped 3 = "" || strStartsWith (strDrop stripped 3) " ")

/-- Processing of a line that is outside a code block: header lines flush
the content and update the metadata, non-empty lines accumulate, blank
lines flush.  `current_metadata` is synchronised with `initial_metadata` at
the end of the iteration, as in the Python loop. -/
def mdProcessRegular (st : MdSplitState) (stripped : String) : MdSplitState :=
  if isMdHeader stripped then
    let data := pyStrip (strDrop stripped 3)
    { acc := mdFlush st, content := [], curMeta := some data, initMeta := some data,
      inCode := st.inCode, fence := st.fence }
  else if stripped ≠ "" then
    { st with content := st.content ++ [stripped], curMeta := st.initMeta }
  else
    { st with acc := mdFlush st, content := [], curMeta := st.initMeta }

/-- One iteration of the splitter's line loop. -/
def mdStep (st : MdSplitState) (line : String) : MdSplitState :=
  let stripped := pyFilterPrintable (pyStrip line)
  if st.inCode then
    if strStartsWith stripped st.fence then
      mdProcessRegular { st with inCode := false, fence := "" } stripped
    else
      { st with content := st.content ++ [stripped] }
  else
    if strStartsWith stripped "```" && countTripleBacktick stripped.toList = 1 then
      { st with inCode := true, fence := "```", content := st.content ++ [stripped] }
    else if strStartsWith stripped "~~~" then
      { st with inCode := true, fence := "~~~", content := st.content ++ [stripped] }
    else
      mdProcessRegular st stripped

/-- `aggregate_lines_to_chunks` with `strip_headers=True`: consecutive
entries with equal metadata are joined with `"  \n"`. -/
def mdAggregate (entries : List MDoc) : List MDoc :=
  entries.foldl (fun agg e =>
    match agg.getLast? with
    | some last =>
      if last.subsection = e.subsection then
        agg.dropLast ++ [⟨last.page_content ++ "  \n" ++ e.page_content, last.subsection⟩]
      else agg ++ [e]
    | none => [e]) []

/-- `MarkdownHeaderTextSplitter([("###", "subsection")]).split_text(text)`. -/
def markdownSplitText (text : String) : List MDoc :=
  let lines := strSplitLines text
  let stF := lines.foldl mdStep ⟨[], [], none, none, false, ""⟩
  mdAggregate (mdFlush stF)

/-- A persisted metadata entry, `{"chunk": "<chunk text>"}`.  This is the
full record `load_and_split_md` keeps per split: the splitter's heading
metadata is not copied into it. -/
structure ChunkMeta where
  chunk : String
deriving DecidableEq

/-- `load_and_split_md` (faissdb_ingestion.py lines 16-28): split the
markdown text on `###` headers, and return the stripped page contents
(`docs`) together with the parallel `{"chunk": ...}` records (`metas`).
Reading the file from disk is the identity on its text content. -/
def load_and_split_md (markdown_text : String) : List String × List ChunkMeta :=
  let splits := markdownSplitText markdown_text
  (splits.map (fun d => pyStrip d.page_content),
   splits.map (fun d => ChunkMeta.mk (pyStrip d.page_content)))

/-- `json.dump(metas, f)` (faissdb_ingestion.py lines 45-46): the persisted
metadata file is a JSON array with one `{"chunk": "<text>"}` object per
entry, in order. -/
def persisted_metadata (metas : List ChunkMeta) : Json :=
  Json.arr (metas.map (fun m => Json.obj [("chunk", Json.str m.chunk)]))

/-! ## Embedding, index build and FAISS search

The embedding model boundary is `encode(texts, normalize_embeddings) ->
vectors`, modelled as a function `Bool → String → List ℤ` (the flag first).
sentence-transformers' default for `normalize_embeddings` is `False`. -/

/-- `normalize_embeddings=True` at index build time
(faissdb_ingestion.py line 31). -/
def ingestion_normalize_embeddings : Bool := true

/-- `normalize_embeddings=True` at query time in `rag_query`
(faiss_server.py line 91). -/
def rag_normalize_embeddings : Bool := true

/-- `model.encode([text])` in `vector_search_server.py` line 16 passes no
`normalize_embeddings` flag, so sentence-transformers' default `False`
applies. -/
def vs_normalize_embeddings : Bool := false

/-- An `IndexFlatIP` holding its stored vectors in insertion order.
`faiss.write_index` / `faiss.read_index` persistence is modelled as the
identity on this structure (the spec requires bit-for-bit round-trip). -/
structure FaissIndex where
  vectors : List (List ℤ)
deriving DecidableEq

/-- `build_faiss_index` (faissdb_ingestion.py lines 30-38): encode every
chunk with `normalize_embeddings=True` in one batched call and add all
vectors to the index in chunk order. -/
def build_faiss_index (encode : Bool → String → List ℤ) (docs : List String) : FaissIndex :=
  ⟨docs.map (encode ingestion_normalize_embeddings)⟩

/-- Inner product of two vectors (numpy/FAISS compute this on floats; the
exact value is used here). -/
def innerProduct (q v : List ℤ) : ℤ :=
  (List.zipWith (fun a b => a * b) q v).foldr (fun a b => a + b) 0

/-- The distance value FAISS fills in for missing results when `k` exceeds
the index size (the float `-infinity` / lowest-value fill; its numeric
value is irrelevant to every claim). -/
def faissPadDistance : ℤ := -(2 ^ 128)

/-- All stored positions with their inner-product score against the query. -/
def faissScored (xb : List (List ℤ)) (q : List ℤ) : List (Nat × ℤ) :=
  (List.range xb.length).map (fun i => (i, innerProduct q (xb.getD i [])))

/-- Descending order by score (ties keep insertion order). -/
def faissRel : (Nat × ℤ) → (Nat × ℤ) → Prop := fun a b => b.2 ≤ a.2

instance : DecidableRel faissRel := fun a b => inferInstanceAs (Decidable (b.2 ≤ a.2))

/-- `IndexFlatIP.search(q, k)`: return exactly `k` labels and `k`
distances — the `min k ntotal` best stored positions by inner product in
descending score order, padded with the sentinel label `-1` (and a fill
distance) when the index holds fewer than `k` vectors. -/
def faissSearch (xb : List (List ℤ)) (q : List ℤ) (k : Nat) : List Int × List ℤ :=
  let sorted := List.insertionSort faissRel (faissScored xb q)
  let valid := sorted.take k
  (valid.map (fun p => ((p.1 : Int))) ++ List.replicate (k - valid.length) (-1),
   valid.map (fun p => p.2) ++ List.replicate (k - valid.length) faissPadDistance)

/-! ## The three retrieval call sites -/

/-- The Python list comprehension `[documents[i] for i in keep]`: index
into `documents` for each position, propagating `IndexError` as `none`. -/
def pyMapIndex (docs : List String) : List Int → Option (List String)
  | [] => some []
  | i :: rest =>
    match pyListGet docs i with
    | none => none
    | some d => (pyMapIndex docs rest).map (fun r => d :: r)

/-- The positions `rag_query` keeps (faiss_server.py line 93): the search
labels with the `-1` sentinel filtered out. -/
def ragKeptPositions (vectors : List (List ℤ)) (query_embedding : List ℤ) (k : Nat) : List Int :=
  ((faissSearch vectors query_embedding k).1).filter (fun i => i ≠ -1)

/-- `matched_docs = [documents[i] for i in I[0] if i != -1]`
(faiss_server.py lines 92-93). -/
def ragRetrieve (vectors : List (List ℤ)) (documents : List String)
    (query_embedding : List ℤ) (k : Nat) : Option (List String) :=
  pyMapIndex documents (ragKeptPositions vectors query_embedding k)

/-- The query-time embedding of `rag_query` (faiss_server.py line 91):
`embedder.encode([user_query], normalize_embeddings=True)`. -/
def ragQueryEmbedding (encode : Bool → String → List ℤ) (user_query : String) : List ℤ :=
  encode rag_normalize_embeddings user_query

/-- The query-time embedding of `vector_search_server.query` (line 16):
`model.encode([text])`, i.e. without normalization. -/
def vsQueryEmbedding (encode : Bool → String → List ℤ) (text : String) : List ℤ :=
  encode vs_normalize_embeddings text

/-- The result loop of `vector_search_server.query` (lines 19-22): for
every `(idx, score)` pair — with no sentinel filtering — take
`metadata[idx].copy()` and attach the score. -/
def vsCollect (metadata : List ChunkMeta) : List (Int × ℤ) → Option (List (ChunkMeta × ℤ))
  | [] => some []
  | p :: rest =>
    match pyListGet metadata p.1 with
    | none => none
    | some m => (vsCollect metadata rest).map (fun r => (m, p.2) :: r)

/-- `query` (vector_search_server.py lines 14-23). -/
def vs_query (index : FaissIndex) (metadata : List ChunkMeta)
    (encode : Bool → String → List ℤ) (text : String) (top_k : Nat) :
    Option (List (ChunkMeta × ℤ)) :=
  let embedding := vsQueryEmbedding encode text
  let res := faissSearch index.vectors embedding top_k
  vsCollect metadata (res.1.zip res.2)

/-- `TOP_K = 5` (faiss_server.py line 26 and faiss-db-retrival-llm.py
line 19). -/
def TOP_K : Nat := 5

/-- `matched_docs = [documents[i] for i in I[0]]`
(faiss-db-retrival-llm.py lines 43-44) — no sentinel filtering. -/
def retrival_matched_docs (index : FaissIndex) (documents : List String)
    (query_embedding : List ℤ) : Option (List String) :=
  pyMapIndex documents (faissSearch index.vectors query_embedding TOP_K).1

/-! ## `faiss_server.py`: the query service boundary -/

/-- `RAGContext` (faiss_server.py lines 29-34): the four lazily loaded
resources.  The embedder handle is the `encode` boundary and the generative
model handle maps a prompt to either a response text or a raised exception
(`Except.error` carries `str(e)`). -/
structure RAGContext where
  index : Option FaissIndex
  documents : Option (List String)
  embedder : Option (Bool → String → List ℤ)
  gemini_model : Option (String → Except String String)

/-- `RAGContext.cleanup` (faiss_server.py lines 58-63): set all four
resources to `None`. -/
def RAGContext.cleanup (_ctx : RAGContext) : RAGContext :=
  ⟨none, none, none, none⟩

/-- The diagnostic returned when the truthiness guard of `rag_query` fails
(faiss_server.py line 85). -/
def notInitializedMsg : String := "RAG system not initialized. Please check server logs."

/-- The per-query error diagnostic produced by the `except` handler of
`rag_query` (faiss_server.py line 114); the argument is `str(e)`. -/
def queryErrorMsg (e : String) : String :=
  "An error occurred while processing the query: " ++ e

/-- The prompt f-string of `rag_query` (faiss_server.py lines 100-106),
including the source's doubled "the the". -/
def ragPrompt (context user_query : String) : String :=
  "You are a helpful assistant. Use the following context to answer the the question. If the context does not contain enough information, state that clearly and then try to answer based on your general knowledge.\n\nContext:\n"
    ++ context ++ "\n\nQuestion: " ++ user_query ++ "\nAnswer:"

/-- The synthesis step of `rag_query` (faiss_server.py lines 96-110):
join the retrieved chunks with blank lines (empty context when nothing was
retrieved), build the prompt, call the generative model, and return the
stripped response; a raised exception is converted by the `except` handler
into the error diagnostic string. -/
def ragSynthesize (gemini_model : String → Except String String)
    (matched_docs : List String) (user_query : String) : String :=
  let context := if matched_docs.isEmpty then "" else String.intercalate "\n\n" matched_docs
  match gemini_model (ragPrompt context user_query) with
  | Except.ok t => pyStrip t
  | Except.error e => queryErrorMsg e

/-- The body of `rag_query` after the guard (faiss_server.py lines 89-114).
An `IndexError` raised inside the `try` block by the retrieval
comprehension is caught by the same `except Exception` handler. -/
def ragServe (index : FaissIndex) (documents : List String)
    (embedder : Bool → String → List ℤ) (gemini_model : String → Except String String)
    (user_query : String) : String :=
  match ragRetrieve index.vectors documents (ragQueryEmbedding embedder user_query) TOP_K with
  | none => queryErrorMsg "list index out of range"
  | some matched_docs => ragSynthesize gemini_model matched_docs user_query

/-- `rag_query` (faiss_server.py lines 79-114).  The guard
`if not all([index, documents, embedder, gemini_model])` uses Python
truthiness: it fails when any resource is `None` and also when
`documents` is the empty list (an empty list is falsy), in which case the
"not initialized" diagnostic is returned without touching the index or the
models. -/
def rag_query (ctx : RAGContext) (user_query : String) : String :=
  match ctx.index, ctx.documents, ctx.embedder, ctx.gemini_model with
  | some index, some documents, some embedder, some gemini_model =>
    if documents.isEmpty then notInitializedMsg
    else ragServe index documents embedder gemini_model user_query
  | _, _, _, _ => notInitializedMsg

/-- A concrete embedding function distinguishing the two normalization
flags, used by witnesses and counterexamples. -/
def encTest : Bool → String → List ℤ :=
  fun b s => if b then [(s.length : ℤ)] else [(s.length : ℤ) + 1]

/-! ## Helper lemmas -/

theorem getD_map_of_lt {α β : Type} (f : α → β) (l : List α) (i : Nat) (d : α) (e : β)
    (h : i < l.length) : (l.map f).getD i e = f (l.getD i d) := by
  induction l generalizing i with
  | nil => exact absurd h (by simp)
  | cons a l ih =>
    cases i with
    | zero => rfl
    | succ n =>
      simp only [List.map_cons, List.getD_cons_succ]
      exact ih n (by simpa using h)

theorem faissScored_length (xb : List (List ℤ)) (q : List ℤ) :
    (faissScored xb q).length = xb.length := by
  simp [faissScored]

theorem faissSorted_length (xb : List (List ℤ)) (q : List ℤ) :
    (List.insertionSort faissRel (faissScored xb q)).length = xb.length := by
  rw [(List.perm_insertionSort faissRel (faissScored xb q)).length_eq, faissScored_length]

theorem faissSorted_fst_lt (xb : List (List ℤ)) (q : List ℤ) :
    ∀ p ∈ List.insertionSort faissRel (faissScored xb q), p.1 < xb.length := by
  intro p hp
  have hmem : p ∈ faissScored xb q :=
    (List.perm_insertionSort faissRel (faissScored xb q)).mem_iff.mp hp
  simp only [faissScored, List.mem_map, List.mem_range] at hmem
  obtain ⟨i, hi, hp2⟩ := hmem
  rw [← hp2]
  exact hi

theorem filter_map_ofNat_fst (l : List (Nat × ℤ)) :
    (l.map (fun p => ((p.1 : Int)))).filter (fun i => i ≠ -1) =
      l.map (fun p => ((p.1 : Int))) := by
  induction l with
  | nil => rfl
  | cons a l ih =>
    have h1 : (decide (((a.1 : Int)) ≠ -1)) = true := by
      simp only [decide_eq_true_eq]
      omega
    simp only [List.map_cons, List.filter_cons, h1, if_true, ih]

theorem filter_replicate_sentinel (m : Nat) :
    (List.replicate m (-1 : Int)).filter (fun i => i ≠ -1) = [] := by
  induction m with
  | zero => rfl
  | succ n ih => simp [List.replicate_succ, List.filter_cons, ih]

theorem ragKeptPositions_eq (xb : List (List ℤ)) (qv : List ℤ) (k : Nat) :
    ragKeptPositions xb qv k =
      ((List.insertionSort faissRel (faissScored xb qv)).take k).map
        (fun p => ((p.1 : Int))) := by
  simp only [ragKeptPositions, faissSearch]
  rw [List.filter_append, filter_map_ofNat_fst, filter_replicate_sentinel, List.append_nil]

theorem pyMapIndex_of_valid (docs : List String) :
    ∀ l : List Int, (∀ i ∈ l, ∃ n : Nat, i = (n : Int) ∧ n < docs.length) →
      ∃ r, pyMapIndex docs l = some r ∧ r.length = l.length := by
  intro l
  induction l with
  | nil => intro _; exact ⟨[], rfl, rfl⟩
  | cons i l ih =>
    intro h
    obtain ⟨n, hi, hn⟩ := h i (List.mem_cons_self i l)
    obtain ⟨r, hr, hlen⟩ := ih (fun j hj => h j (List.mem_cons_of_mem i hj))
    have hget : pyListGet docs i = some (docs.get ⟨n, hn⟩) := by
      subst hi
      unfold pyListGet
      rw [if_pos (by omega)]
      simp [List.get?_eq_get hn]
    refine ⟨docs.get ⟨n, hn⟩ :: r, ?_, by simp [hlen]⟩
    simp [pyMapIndex, hget, hr]

/-! ## Claim theorems -/

/-- C1: for every query, if the generative model call made during answer
synthesis raises (any exception), `rag_query` still returns a string — the
function is total — and that string is the error diagnostic
`"An error occurred while processing the query: ..."` rather than a
propagated exception. -/
theorem rag_query_gemini_failure_returns_error_string
    (idx : FaissIndex) (docs : List String) (emb : Bool → String → List ℤ)
    (gm : String → Except String String) (q : String)
    (hdocs : docs ≠ [])
    (hgm : ∀ p, ∃ e, gm p = Except.error e) :
    ∃ msg, rag_query ⟨some idx, some docs, some emb, some gm⟩ q = queryErrorMsg msg := by
  rcases docs with _ | ⟨d, ds⟩
  · exact absurd rfl hdocs
  · show ∃ msg, ragServe idx (d :: ds) emb gm q = queryErrorMsg msg
    unfold ragServe
    rcases hr : ragRetrieve idx.vectors (d :: ds) (ragQueryEmbedding emb q) TOP_K with _ | r
    · exact ⟨"list index out of range", rfl⟩
    · obtain ⟨e, he⟩ :=
        hgm (ragPrompt (if r.isEmpty then "" else String.intercalate "\n\n" r) q)
      refine ⟨e, ?_⟩
      simp only [ragSynthesize]
      rw [he]

theorem rag_query_gemini_failure_witness :
    ∃ msg, rag_query ⟨some ⟨[[1]]⟩, some ["a"], some (fun _ _ => [1]),
        some (fun _ => Except.error "boom")⟩ "x" = queryErrorMsg msg :=
  rag_query_gemini_failure_returns_error_string ⟨[[1]]⟩ ["a"] (fun _ _ => [1])
    (fun _ => Except.error "boom") "x" (by decide) (fun _ => ⟨"boom", rfl⟩)

/-- C2 counterexample: on the input `"hello"` strict JSON parsing fails,
the quoted-string fallback finds nothing and the heading-line fallback
finds nothing, yet `safe_parse_llm_output` returns the empty list as a
normal (success) result — there is no `ParseError`: the function has no
raise path for this case at all. -/
theorem safe_parse_total_failure_cex :
    jsonLoads (cleanLlmText "hello") = none ∧
    llmQuotedFallback (cleanLlmText "hello") = [] ∧
    llmHeadingFallback (cleanLlmText "hello") = [] ∧
    safe_parse_llm_output "hello" = Json.arr [] :=
  ⟨rfl, rfl, rfl, rfl⟩

/-- C2 (amended): when strict JSON parsing, quoted-string extraction and
heading-line extraction all yield nothing, `safe_parse_llm_output` returns
the empty list as a success result (it does not fail with a ParseError). -/
theorem safe_parse_total_failure_returns_empty (text : String)
    (h1 : jsonLoads (cleanLlmText text) = none)
    (h2 : llmQuotedFallback (cleanLlmText text) = [])
    (h3 : llmHeadingFallback (cleanLlmText text) = []) :
    safe_parse_llm_output text = Json.arr [] := by
  simp [safe_parse_llm_output, h1, h2, h3]

theorem safe_parse_total_failure_witness : safe_parse_llm_output "hello" = Json.arr [] :=
  safe_parse_total_failure_returns_empty "hello" rfl rfl rfl

/-- C10: the boilerplate substitutions apply to every occurrence anywhere
in the input, so the well-formed JSON array of strings `["a```b"]` — whose
single element contains backticks — is returned by the parser as `["ab"]`,
different from the JSON decoding of the original input. -/
theorem safe_parse_rewrites_backticks_inside_json :
    jsonLoads "[\"a```b\"]" = some (Json.arr [Json.str "a```b"]) ∧
    safe_parse_llm_output "[\"a```b\"]" = Json.arr [Json.str "ab"] ∧
    jsonStrings (safe_parse_llm_output "[\"a```b\"]") ≠
      jsonStrings (Json.arr [Json.str "a```b"]) :=
  ⟨rfl, rfl, by decide⟩

/-- C6 counterexample: on the markdown input `"### Title\n\x01 \x01"` (a
level-3 heading followed by a line whose printable residue is a single
space) the splitter produces the block `" "` under the heading `"Title"`,
and `load_and_split_md` (a) keeps the chunk although its body is empty
after trimming, and (b) records only `{"chunk": ""}` — the heading text is
not stored as any `section_title`; the persisted entry has no field
besides `"chunk"`. -/
theorem load_and_split_md_cex :
    markdownSplitText "### Title\n\x01 \x01" = [MDoc.mk " " (some "Title")] ∧
    load_and_split_md "### Title\n\x01 \x01" = ([""], [ChunkMeta.mk ""]) ∧
    persisted_metadata (load_and_split_md "### Title\n\x01 \x01").2 =
      Json.arr [Json.obj [("chunk", Json.str "")]] :=
  ⟨rfl, rfl, rfl⟩

/-- C6 (amended): structural segmentation makes each block one chunk and
its persisted metadata record holds exactly the trimmed chunk text — the
heading is used only as the split boundary and is not recorded, and empty
chunks are not dropped. -/
theorem load_and_split_md_metadata_is_chunk_text (md : String) :
    (load_and_split_md md).2 = (load_and_split_md md).1.map ChunkMeta.mk ∧
    (load_and_split_md md).2.map ChunkMeta.chunk = (load_and_split_md md).1 := by
  unfold load_and_split_md
  constructor <;> simp [List.map_map, Function.comp]

/-- C8 counterexample: a context loaded over an index built from zero
chunks (empty vector list, empty documents list) does not proceed to
retrieval and synthesis: even with a generative model that would answer,
`rag_query` returns the "not initialized" diagnostic, because the empty
documents list is falsy in the `all([...])` guard. -/
theorem rag_query_zero_chunk_cex :
    rag_query ⟨some ⟨[]⟩, some [], some (fun _ _ => []),
        some (fun _ => Except.ok "General knowledge answer.")⟩ "q" = notInitializedMsg ∧
    notInitializedMsg ≠ "General knowledge answer." :=
  ⟨rfl, by decide⟩

/-- C8 (amended): over an index built from zero chunks (so with an empty
documents list) every `rag_query` call still returns a string without
crashing, but that string is the "not initialized" diagnostic — the empty
list fails the Python truthiness guard and the synthesizer is never
reached. -/
theorem rag_query_empty_documents_not_initialized (idx : FaissIndex)
    (emb : Bool → String → List ℤ) (gm : String → Except String String) (q : String) :
    rag_query ⟨some idx, some [], some emb, some gm⟩ q = notInitializedMsg := rfl

/-- C9: after `cleanup` releases all four resources, every subsequent
`rag_query` call — whatever the prior context held and whatever the query —
returns the "not initialized" diagnostic; the result is a constant
independent of the released index, metadata, embedder and model, so none of
them is dereferenced. -/
theorem rag_query_after_cleanup_not_initialized (ctx : RAGContext) (q : String) :
    rag_query ctx.cleanup q = notInitializedMsg := rfl

set_option maxRecDepth 8000

/-- C3 counterexample: `vector_search_server.query` does not return
`min(K, index_size)` results.  Over an index holding one vector (one
metadata entry) a query with `top_k = 2` returns two entries, not
`min 2 1 = 1`: the sentinel position `-1` is mapped through Python negative
indexing to the last metadata entry, duplicating it. -/
theorem vs_query_length_cex :
    vs_query ⟨[[1]]⟩ [ChunkMeta.mk "a"] (fun _ _ => [1]) "q" 2 =
      some [(ChunkMeta.mk "a", 1), (ChunkMeta.mk "a", faissPadDistance)] ∧
    (2 : Nat) ≠ min 2 1 :=
  ⟨by decide, by decide⟩

/-- C3 (amended): for the retrieval step of `rag_query` — which does filter
the sentinel `-1` — the result length is exactly `min K index_size`, for
every K ≥ 1, every index, and every parallel documents list;
`vector_search_server.query` instead always returns `top_k` entries,
mapping sentinel positions to the last metadata entry. -/
theorem rag_retrieve_length_min (xb : List (List ℤ)) (docs : List String)
    (qv : List ℤ) (k : Nat) (hk : 1 ≤ k) (hlen : docs.length = xb.length) :
    ∃ r, ragRetrieve xb docs qv k = some r ∧ r.length = min k xb.length := by
  unfold ragRetrieve
  rw [ragKeptPositions_eq]
  have hvalid : ∀ i ∈ ((List.insertionSort faissRel (faissScored xb qv)).take k).map
      (fun p => ((p.1 : Int))), ∃ n : Nat, i = (n : Int) ∧ n < docs.length := by
    intro i hi
    simp only [List.mem_map] at hi
    obtain ⟨p, hp, hpi⟩ := hi
    exact ⟨p.1, hpi.symm,
      hlen ▸ faissSorted_fst_lt xb qv p (List.take_subset k _ hp)⟩
  obtain ⟨r, hr, hl⟩ := pyMapIndex_of_valid docs _ hvalid
  refine ⟨r, hr, ?_⟩
  rw [hl, List.length_map, List.length_take, faissSorted_length]

theorem rag_retrieve_length_min_witness :
    ∃ r, ragRetrieve [[(1 : ℤ)], [(2 : ℤ)]] ["a", "b"] [(1 : ℤ)] 7 = some r ∧
      r.length = min 7 ([[(1 : ℤ)], [(2 : ℤ)]].length) :=
  rag_retrieve_length_min [[1], [2]] ["a", "b"] [1] 7 (by decide) (by decide)

/-- C4 counterexample: the retrieval of `faiss-db-retrival-llm.py` maps
every returned position back to a chunk with no sentinel filtering: over a
one-vector index, `TOP_K = 5` search returns positions `[0, -1, -1, -1, -1]`
and four of the five retrieval entries come from the sentinel position `-1`
(Python negative indexing turns it into the last document). -/
theorem retrival_matched_docs_sentinel_cex :
    (faissSearch [[1]] [1] TOP_K).1 = [0, -1, -1, -1, -1] ∧
    retrival_matched_docs ⟨[[1]]⟩ ["a"] [1] = some ["a", "a", "a", "a", "a"] :=
  ⟨by decide, by decide⟩

/-- C4 (amended): in `rag_query` every sentinel position is discarded
before positions are mapped back to chunks: every position that survives
the filter is a non-sentinel, in-range index of the stored vectors, so no
`rag_query` retrieval entry ever comes from a sentinel position.  The
`vector_search_server.query` and retrieval-CLI variants do not discard
sentinels. -/
theorem rag_kept_positions_no_sentinel (xb : List (List ℤ)) (qv : List ℤ) (k : Nat) :
    ∀ i ∈ ragKeptPositions xb qv k, i ≠ -1 ∧ 0 ≤ i ∧ i.toNat < xb.length := by
  intro i hi
  rw [ragKeptPositions_eq] at hi
  simp only [List.mem_map] at hi
  obtain ⟨p, hp, hpi⟩ := hi
  have hplt := faissSorted_fst_lt xb qv p (List.take_subset k _ hp)
  refine ⟨?_, ?_, ?_⟩ <;> rw [← hpi]
  · omega
  · omega
  · simpa using hplt

theorem rag_kept_positions_no_sentinel_witness :
    (0 : Int) ≠ -1 ∧ (0 : Int) ≤ 0 ∧ (0 : Int).toNat < [[(1 : ℤ)]].length :=
  rag_kept_positions_no_sentinel [[1]] [1] 5 0 (by decide)

/-- C5 counterexample: the normalization policy is not the same across the
system's query paths: the index build passes `normalize_embeddings=True`
while `vector_search_server.query` encodes with the default `False`, so
for an embedding function that distinguishes the flags, the query-time
vector of a text differs from the stored vector of the identical text. -/
theorem vs_query_embedding_mismatch_cex :
    vs_normalize_embeddings ≠ ingestion_normalize_embeddings ∧
    vsQueryEmbedding encTest "t" ≠ (build_faiss_index encTest ["t"]).vectors.getD 0 [] :=
  ⟨by decide, by decide⟩

/-- C5 (amended): `rag_query` embeds the query with the same normalization
policy as the stored chunk vectors: both pass `normalize_embeddings=True`,
so for every embedding function the stored vector of a chunk equals the
query-time embedding of the same text. -/
theorem rag_query_embedding_matches_build (encode : Bool → String → List ℤ)
    (docs : List String) (i : Nat) (h : i < docs.length) :
    (build_faiss_index encode docs).vectors.getD i [] =
      ragQueryEmbedding encode (docs.getD i "") ∧
    rag_normalize_embeddings = ingestion_normalize_embeddings := by
  constructor
  · unfold build_faiss_index
    exact getD_map_of_lt _ docs i "" [] h
  · rfl

theorem rag_query_embedding_matches_build_witness :
    (build_faiss_index encTest ["t"]).vectors.getD 0 [] =
      ragQueryEmbedding encTest (["t"].getD 0 "") ∧
    rag_normalize_embeddings = ingestion_normalize_embeddings :=
  rag_query_embedding_matches_build encTest ["t"] 0 (by decide)

/-- C7: for every (non-empty) chunk sequence produced by
`load_and_split_md`, the built index, the persisted metadata and the chunk
list all have the same length, and at every position the index vector is
the embedding of the chunk text there while the metadata entry records
exactly that chunk text. -/
theorem build_index_parallel_correspondence (encode : Bool → String → List ℤ)
    (md : String) (h0 : 0 < (load_and_split_md md).1.length) :
    (build_faiss_index encode (load_and_split_md md).1).vectors.length =
      (load_and_split_md md).1.length ∧
    (load_and_split_md md).2.length = (load_and_split_md md).1.length ∧
    ∀ i, i < (load_and_split_md md).1.length →
      (build_faiss_index encode (load_and_split_md md).1).vectors.getD i [] =
        encode ingestion_normalize_embeddings ((load_and_split_md md).1.getD i "") ∧
      ((load_and_split_md md).2.getD i ⟨""⟩).chunk = (load_and_split_md md).1.getD i "" := by
  refine ⟨by simp [build_faiss_index], by simp [load_and_split_md], ?_⟩
  intro i hi
  constructor
  · unfold build_faiss_index
    exact getD_map_of_lt _ _ i "" [] hi
  · have hsplit : i < (markdownSplitText md).length := by
      simpa [load_and_split_md] using hi
    simp only [load_and_split_md]
    rw [getD_map_of_lt (fun d => ChunkMeta.mk (pyStrip d.page_content)) _ i ⟨"", none⟩ ⟨""⟩ hsplit,
      getD_map_of_lt (fun d => pyStrip d.page_content) _ i ⟨"", none⟩ "" hsplit]

theorem build_index_parallel_correspondence_witness :
    (load_and_split_md "### T\nbody").2.length = (load_and_split_md "### T\nbody").1.length ∧
    ((load_and_split_md "### T\nbody").2.getD 0 ⟨""⟩).chunk =
      (load_and_split_md "### T\nbody").1.getD 0 "" := by
  obtain ⟨h1, h2, h3⟩ := build_index_parallel_correspondence encTest "### T\nbody" (by decide)
  exact ⟨h2, (h3 0 (by decide)).2⟩
